import Mathlib

/-!
Verification of the cave-flyer core in `cave_maker.py`: the `CaveSlice`
column type with its four bounded mutators and renderer, the `Cave`
scrolling buffer with its random-walk advance step, and the `Ship`
flight state.  Python integers are modelled as `Int`; the process-wide
random draws in the advance step are modelled as two explicit booleans
(`random() > 0.5` for the ceiling draw and for the floor draw); Python
statements that can raise `IndexError` are modelled as `Except`-valued
functions whose `error` payload is the object state at the moment the
exception propagates.
-/

namespace CaveMaker

/-- `SHIP_CHAR = "x"`. -/
def SHIP_CHAR : Char := 'x'

/-- One vertical slice of the cave (`class CaveSlice`). -/
structure CaveSlice where
  max_height : Int
  min_opening : Int
  ceiling : Int
  floor : Int
  ship_position : Option Int
  deriving Repr, DecidableEq, Inhabited

/-- `CaveSlice.__init__(max_height, min_opening, ceiling=None, floor=0)`
with `ceiling` given: `self.ceiling` is set to `max_height - 1` and then
overwritten by the argument; `self.ship_position = None`. -/
def mkSlice (max_height min_opening ceiling floor : Int) : CaveSlice :=
  { max_height := max_height
    min_opening := min_opening
    ceiling := ceiling
    floor := floor
    ship_position := none }

/-- `CaveSlice.__init__` with the defaults `ceiling=None, floor=0`:
`ceiling = max_height - 1`, `floor = 0`. -/
def defaultSlice (max_height min_opening : Int) : CaveSlice :=
  mkSlice max_height min_opening (max_height - 1) 0

/-- `CaveSlice._at_min_opening`. -/
def at_min_opening (s : CaveSlice) : Bool :=
  (s.ceiling - s.floor) == s.min_opening

/-- `CaveSlice.raise_ceiling`: `if self.ceiling < self.max_height - 1: self.ceiling += 1`. -/
def raise_ceiling (s : CaveSlice) : CaveSlice :=
  if s.ceiling < s.max_height - 1 then { s with ceiling := s.ceiling + 1 } else s

/-- `CaveSlice.lower_ceiling`: `if not self._at_min_opening(): self.ceiling -= 1`. -/
def lower_ceiling (s : CaveSlice) : CaveSlice :=
  if ¬ at_min_opening s then { s with ceiling := s.ceiling - 1 } else s

/-- `CaveSlice.raise_floor`: `if not self._at_min_opening(): self.floor += 1`. -/
def raise_floor (s : CaveSlice) : CaveSlice :=
  if ¬ at_min_opening s then { s with floor := s.floor + 1 } else s

/-- `CaveSlice.lower_floor`: `if self.floor > 0: self.floor -= 1`. -/
def lower_floor (s : CaveSlice) : CaveSlice :=
  if s.floor > 0 then { s with floor := s.floor - 1 } else s

/-- The character the loop body of `CaveSlice.build_slice` appends for
row index `i`: `"_"` when `i == self.ceiling or i == self.floor`, the
ship character when `i is self.ship_position`, a space otherwise. -/
def rowChar (s : CaveSlice) (i : Int) : Char :=
  if i = s.ceiling ∨ i = s.floor then '_'
  else if s.ship_position = some i then SHIP_CHAR
  else ' '

/-- `CaveSlice.build_slice`: `"*"`, then one character per row index `i`
in `reversed(range(self.max_height))`, then `"*"`. -/
def build_slice (s : CaveSlice) : List Char :=
  '*' :: ((List.range s.max_height.toNat).reverse.map fun i : Nat => rowChar s (i : Int)) ++ ['*']

/-- The scrolling cave buffer (`class Cave`).  The `ship` back-reference
carries no state used by the core, so it is not modelled. -/
structure Cave where
  max_height : Int
  min_opening : Int
  cave_buffer : List CaveSlice
  key_frame : Nat
  deriving Repr, DecidableEq, Inhabited

/-- `Cave.init_cave_slice`: `CaveSlice(self.max_height, self.min_opening)`. -/
def init_cave_slice (max_height min_opening : Int) : CaveSlice :=
  defaultSlice max_height min_opening

/-- `Cave.__init__(max_height, width, min_opening)`:
`cave_buffer = [self.init_cave_slice() for _ in range(width)]`,
`key_frame = width // 5`. -/
def cave_init (max_height : Int) (width : Nat) (min_opening : Int) : Cave :=
  { max_height := max_height
    min_opening := min_opening
    cave_buffer := List.replicate width (init_cave_slice max_height min_opening)
    key_frame := width / 5 }

/-- The slice appended by `Cave.__next__`: a clone of the buffer's new
tail, with its ceiling raised or lowered by the first draw and its floor
raised or lowered by the second draw. -/
def next_slice (last_slice : CaveSlice) (ceilUp floorUp : Bool) : CaveSlice :=
  let s0 := mkSlice last_slice.max_height last_slice.min_opening
    last_slice.ceiling last_slice.floor
  let s1 := if ceilUp then raise_ceiling s0 else lower_ceiling s0
  if floorUp then raise_floor s1 else lower_floor s1

/-- `Cave.__next__` with the two draws `random() > 0.5` made explicit as
`ceilUp` and `floorUp`.  `del self.cave_buffer[0]` raises `IndexError`
on an empty buffer (buffer unchanged); `self.cave_buffer[-1]` raises
`IndexError` when the buffer is empty after the deletion.  The `error`
payload is the cave as the exception leaves it. -/
def cave_next (c : Cave) (ceilUp floorUp : Bool) : Except Cave Cave :=
  match c.cave_buffer with
  | [] => .error c
  | _ :: rest =>
    match rest.getLast? with
    | none => .error { c with cave_buffer := rest }
    | some last_slice =>
      .ok { c with cave_buffer := rest ++ [next_slice last_slice ceilUp floorUp] }

/-- Python list subscripting: index `i` into a list of length `n` resolves
to `i` when `0 ≤ i < n`, to `n + i` when `-n ≤ i < 0`, and raises
`IndexError` otherwise. -/
def pyIdx (n : Nat) (i : Int) : Option Nat :=
  if 0 ≤ i then (if i < (n : Int) then some i.toNat else none)
  else (if 0 ≤ i + (n : Int) then some (i + (n : Int)).toNat else none)

/-- Replace the element at position `i` (0-based, in range) by `f` of it;
out-of-range leaves the list unchanged. -/
def modifyAt {α : Type} : List α → Nat → (α → α) → List α
  | [], _, _ => []
  | x :: xs, 0, f => f x :: xs
  | x :: xs, n + 1, f => x :: modifyAt xs n f

/-- Flight state (`class Ship`); the `cave` back-reference is passed
explicitly to the operations that use it. -/
structure Ship where
  position : Int
  last_thrust : Int
  has_crashed : Bool
  deriving Repr, DecidableEq, Inhabited

/-- `Ship.thrust`: `position += 2; last_thrust = 0` (no crash guard). -/
def thrust (s : Ship) : Ship :=
  { s with position := s.position + 2, last_thrust := 0 }

/-- `Ship.fall`: early return when crashed; otherwise
`position -= last_thrust ** 2`, clamp to `0`, then `last_thrust += 1`. -/
def fall (s : Ship) : Ship :=
  if s.has_crashed then s
  else
    let p := s.position - s.last_thrust ^ 2
    { s with position := if p < 0 then 0 else p, last_thrust := s.last_thrust + 1 }

/-- `Ship.crash`: `has_crashed = True`. -/
def crash (s : Ship) : Ship :=
  { s with has_crashed := true }

/-- `Ship.plot_position`: `self.cave.cave_buffer[self.cave.key_frame].ship_position = self.position`. -/
def plot_position (pos : Int) (c : Cave) : Except Cave Cave :=
  match pyIdx c.cave_buffer.length (c.key_frame : Int) with
  | none => .error c
  | some j =>
    .ok { c with cave_buffer := modifyAt c.cave_buffer j fun s => { s with ship_position := some pos } }

/-- `Ship.clear`: `self.cave.cave_buffer[self.cave.key_frame - 1].ship_position = None`. -/
def clear (c : Cave) : Except Cave Cave :=
  match pyIdx c.cave_buffer.length ((c.key_frame : Int) - 1) with
  | none => .error c
  | some j =>
    .ok { c with cave_buffer := modifyAt c.cave_buffer j fun s => { s with ship_position := none } }

/-- The slice bounds the spec states: `0 ≤ floor ≤ ceiling ≤ maxHeight - 1`
and `ceiling - floor ≥ minOpening`. -/
def SliceInv (s : CaveSlice) : Prop :=
  0 ≤ s.floor ∧ s.floor ≤ s.ceiling ∧ s.ceiling ≤ s.max_height - 1 ∧
    s.min_opening ≤ s.ceiling - s.floor

instance (s : CaveSlice) : Decidable (SliceInv s) := by
  unfold SliceInv; infer_instance

/-- One of the four bounded slice mutators. -/
inductive SliceOp : Type
  | raiseC : SliceOp
  | lowerC : SliceOp
  | raiseF : SliceOp
  | lowerF : SliceOp

/-- Apply a chosen mutator. -/
def applyOp : SliceOp → CaveSlice → CaveSlice
  | .raiseC => raise_ceiling
  | .lowerC => lower_ceiling
  | .raiseF => raise_floor
  | .lowerF => lower_floor

/-- Cave states reachable from `Cave(max_height, width, min_opening)` by
successful advance steps, slice mutations anywhere in the buffer, and the
ship marker projection/clearing calls. -/
inductive Reach (maxH : Int) (width : Nat) (minO : Int) : Cave → Prop
  | init : Reach maxH width minO (cave_init maxH width minO)
  | advance {c c' : Cave} (ceilUp floorUp : Bool) :
      Reach maxH width minO c → cave_next c ceilUp floorUp = .ok c' →
      Reach maxH width minO c'
  | mutate {c : Cave} (i : Nat) (op : SliceOp) :
      Reach maxH width minO c →
      Reach maxH width minO { c with cave_buffer := modifyAt c.cave_buffer i (applyOp op) }
  | plot {c c' : Cave} (p : Int) :
      Reach maxH width minO c → plot_position p c = .ok c' →
      Reach maxH width minO c'
  | clearStep {c c' : Cave} :
      Reach maxH width minO c → clear c = .ok c' →
      Reach maxH width minO c'

/-- Whether an `Except`-modelled operation raised. -/
def raised : Except Cave Cave → Bool
  | .ok _ => false
  | .error _ => true

/-- The cave carried by an `Except`-modelled operation's result: the new
state on success, the state at the exception on failure. -/
def okD : Except Cave Cave → Cave
  | .ok c => c
  | .error c => c

/-! ## Helper lemmas -/

theorem modifyAt_length {α : Type} (l : List α) (i : Nat) (f : α → α) :
    (modifyAt l i f).length = l.length := by
  induction l generalizing i with
  | nil => rfl
  | cons x xs ih =>
    cases i with
    | zero => rfl
    | succ n => simpa [modifyAt] using ih n

theorem mem_modifyAt {α : Type} {P : α → Prop} {l : List α} {i : Nat} {f : α → α}
    (hl : ∀ x ∈ l, P x) (hf : ∀ x, P x → P (f x)) :
    ∀ y ∈ modifyAt l i f, P y := by
  induction l generalizing i with
  | nil => intro y hy; cases hy
  | cons x xs ih =>
    cases i with
    | zero =>
      intro y hy
      rcases List.mem_cons.mp hy with h | h
      · exact h ▸ hf x (hl x (List.mem_cons_self x xs))
      · exact hl y (List.mem_cons_of_mem x h)
    | succ n =>
      intro y hy
      rcases List.mem_cons.mp hy with h | h
      · exact h ▸ hl x (List.mem_cons_self x xs)
      · exact ih (fun z hz => hl z (List.mem_cons_of_mem x hz)) y h

theorem raise_ceiling_sliceInv {s : CaveSlice} (h : SliceInv s) :
    SliceInv (raise_ceiling s) := by
  unfold SliceInv raise_ceiling at *
  split_ifs <;> simp_all <;> omega

theorem lower_ceiling_sliceInv {s : CaveSlice} (hm : 0 < s.min_opening) (h : SliceInv s) :
    SliceInv (lower_ceiling s) := by
  unfold SliceInv lower_ceiling at_min_opening at *
  split_ifs with hc <;> simp_all <;> omega

theorem raise_floor_sliceInv {s : CaveSlice} (hm : 0 < s.min_opening) (h : SliceInv s) :
    SliceInv (raise_floor s) := by
  unfold SliceInv raise_floor at_min_opening at *
  split_ifs with hc <;> simp_all <;> omega

theorem lower_floor_sliceInv {s : CaveSlice} (h : SliceInv s) :
    SliceInv (lower_floor s) := by
  unfold SliceInv lower_floor at *
  split_ifs <;> simp_all <;> omega

/-! ## C6: mutator clamping -/

/-- C6: each Slice mutator is a no-op exactly at its limit: on any slice
state within the data model's bounds (`ceiling ≤ maxHeight - 1`,
`floor ≥ 0`), `raise_ceiling` leaves `ceiling` unchanged exactly when
`ceiling = maxHeight - 1` and otherwise adds 1; `lower_ceiling` leaves it
unchanged exactly when `ceiling - floor = minOpening` and otherwise
subtracts 1; `raise_floor` leaves `floor` unchanged exactly when
`ceiling - floor = minOpening` and otherwise adds 1; `lower_floor` leaves
`floor` unchanged exactly when `floor = 0` and otherwise subtracts 1. -/
theorem C6_mutator_clamps (s : CaveSlice)
    (hc : s.ceiling ≤ s.max_height - 1) (hf : 0 ≤ s.floor) :
    (raise_ceiling s).ceiling =
      (if s.ceiling = s.max_height - 1 then s.ceiling else s.ceiling + 1) ∧
    (lower_ceiling s).ceiling =
      (if s.ceiling - s.floor = s.min_opening then s.ceiling else s.ceiling - 1) ∧
    (raise_floor s).floor =
      (if s.ceiling - s.floor = s.min_opening then s.floor else s.floor + 1) ∧
    (lower_floor s).floor =
      (if s.floor = 0 then s.floor else s.floor - 1) := by
  unfold raise_ceiling lower_ceiling raise_floor lower_floor at_min_opening
  refine ⟨?_, ?_, ?_, ?_⟩ <;> (split_ifs <;> simp_all <;> omega)

/-- Witness for C6 at the slice `maxHeight = 10, minOpening = 3,
ceiling = 9, floor = 0`. -/
theorem C6_witness :
    (raise_ceiling ⟨10, 3, 9, 0, none⟩).ceiling = 9 ∧
    (lower_ceiling ⟨10, 3, 9, 0, none⟩).ceiling = 8 ∧
    (raise_floor ⟨10, 3, 9, 0, none⟩).floor = 1 ∧
    (lower_floor ⟨10, 3, 9, 0, none⟩).floor = 0 := by
  have h := C6_mutator_clamps ⟨10, 3, 9, 0, none⟩ (by norm_num) (by norm_num)
  simpa using h

/-! ## C7: quadratic fall -/

/-- C7: from any non-crashed ship state with `fallAcceleration = 0`, three
consecutive `fall()` calls subtract `0`, `1` and `4` from `position`
respectively, clamping at `0` after each subtraction. -/
theorem C7_quadratic_fall (s : Ship) (h1 : s.has_crashed = false) (h2 : s.last_thrust = 0) :
    (fall s).position = max (s.position - 0) 0 ∧
    (fall (fall s)).position = max ((fall s).position - 1) 0 ∧
    (fall (fall (fall s))).position = max ((fall (fall s)).position - 4) 0 := by
  simp only [fall, h1, h2]
  norm_num
  constructor <;> split_ifs <;> simp_all <;> omega

/-- Witness for C7 at the ship `position = 5, fallAcceleration = 0,
not crashed`: positions after the three falls are `5`, `4`, `0`. -/
theorem C7_witness :
    (fall ⟨5, 0, false⟩).position = max ((5 : Int) - 0) 0 ∧
    (fall (fall ⟨5, 0, false⟩)).position = max ((fall ⟨5, 0, false⟩).position - 1) 0 ∧
    (fall (fall (fall ⟨5, 0, false⟩))).position =
      max ((fall (fall ⟨5, 0, false⟩)).position - 4) 0 :=
  C7_quadratic_fall ⟨5, 0, false⟩ rfl rfl

/-! ## C8: thrust -/

/-- C8: on any non-crashed ship state, `thrust()` adds exactly 2 to
`position` and resets `fallAcceleration` to 0. -/
theorem C8_thrust_adds_two (s : Ship) (h : s.has_crashed = false) :
    (thrust s).position = s.position + 2 ∧ (thrust s).last_thrust = 0 := by
  simp [thrust]

/-- Witness for C8: a ship at `position = 5` with `fallAcceleration = 2`
calling `thrust()` ends at `position = 7` with `fallAcceleration = 0`. -/
theorem C8_witness :
    (thrust ⟨5, 2, false⟩).position = 7 ∧ (thrust ⟨5, 2, false⟩).last_thrust = 0 := by
  have h := C8_thrust_adds_two ⟨5, 2, false⟩ rfl
  simpa using h

/-! ## C2: crash monotonicity -/

/-- C2 as stated is false: `Ship.thrust` has no crash guard, so a crashed
ship's `position` still changes on `thrust()`.  At `position = 5,
fallAcceleration = 2` after `crash()`, `thrust()` moves `position` to 7. -/
theorem C2_counterexample :
    (crash ⟨5, 2, false⟩).has_crashed = true ∧
    (thrust (crash ⟨5, 2, false⟩)).position = 7 ∧
    ¬ (thrust (crash ⟨5, 2, false⟩)).position = (crash ⟨5, 2, false⟩).position := by
  decide

/-- C2 amended: once `crashed` is true, `fall()` changes nothing (so no
sequence of subsequent `fall()` calls changes `position` or
`fallAcceleration`), but `thrust()` is unguarded: it still adds 2 to
`position` and resets `fallAcceleration` to 0, leaving `crashed` true. -/
theorem C2_crash_amended (s : Ship) (h : s.has_crashed = true) :
    fall s = s ∧
    (thrust s).position = s.position + 2 ∧
    (thrust s).last_thrust = 0 ∧
    (thrust s).has_crashed = true := by
  simp [fall, thrust, h]

/-- Witness for the amended C2 at the crashed ship
`position = 3, fallAcceleration = 1`. -/
theorem C2_witness :
    fall ⟨3, 1, true⟩ = ⟨3, 1, true⟩ ∧
    (thrust ⟨3, 1, true⟩).position = 3 + 2 ∧
    (thrust ⟨3, 1, true⟩).last_thrust = 0 ∧
    (thrust ⟨3, 1, true⟩).has_crashed = true :=
  C2_crash_amended ⟨3, 1, true⟩ rfl

/-! ## C5: construction and one advance step at maxHeight 10, width 5, minOpening 3 -/

/-- C5: `Cave(10, 5, 3)` starts with 5 slices all at `ceiling = 9,
floor = 0`; for each of the four outcomes of the two random draws, one
advance step succeeds, keeps the buffer at length 5, and yields a new
tail with `ceiling ∈ {8, 9}`, `floor ∈ {0, 1}` and opening `≥ 3`. -/
theorem C5_scenario :
    ((cave_init 10 5 3).cave_buffer.length = 5 ∧
      ∀ s ∈ (cave_init 10 5 3).cave_buffer, s.ceiling = 9 ∧ s.floor = 0) ∧
    ∀ ceilUp floorUp : Bool,
      raised (cave_next (cave_init 10 5 3) ceilUp floorUp) = false ∧
      (okD (cave_next (cave_init 10 5 3) ceilUp floorUp)).cave_buffer.length = 5 ∧
      ((okD (cave_next (cave_init 10 5 3) ceilUp floorUp)).cave_buffer.getLastD default).ceiling ∈
        ([8, 9] : List Int) ∧
      ((okD (cave_next (cave_init 10 5 3) ceilUp floorUp)).cave_buffer.getLastD default).floor ∈
        ([0, 1] : List Int) ∧
      3 ≤ ((okD (cave_next (cave_init 10 5 3) ceilUp floorUp)).cave_buffer.getLastD default).ceiling -
        ((okD (cave_next (cave_init 10 5 3) ceilUp floorUp)).cave_buffer.getLastD default).floor := by
  constructor
  · decide
  · intro ceilUp floorUp
    cases ceilUp <;> cases floorUp <;> decide

/-! ## C9: slice rendering -/

/-- Modelled from the spec: `render()` emits a boundary character, then
for each row index from `maxHeight - 1` down to `0` a wall character if
the row equals `ceiling` or `floor`, else the marker character if the row
equals `markerRow`, else a space, then a trailing boundary character. -/
def specRowChar (s : CaveSlice) (i : Int) : Char :=
  if i = s.ceiling ∨ i = s.floor then '_'
  else if s.ship_position = some i then SHIP_CHAR
  else ' '

/-- Modelled from the spec: the rows of `render()` for indices `n - 1`
down to `0`. -/
def specRows (s : CaveSlice) : Nat → List Char
  | 0 => []
  | n + 1 => specRowChar s (n : Int) :: specRows s n

/-- Modelled from the spec: the full `render()` output, top to bottom. -/
def render_spec (s : CaveSlice) : List Char :=
  '*' :: specRows s s.max_height.toNat ++ ['*']

theorem range_reverse_map_rowChar (s : CaveSlice) (n : Nat) :
    (List.range n).reverse.map (fun i : Nat => rowChar s (i : Int)) = specRows s n := by
  induction n with
  | zero => rfl
  | succ m ih =>
    rw [List.range_succ, List.reverse_append]
    simpa [specRows, rowChar, specRowChar] using ih

/-- C9: for every slice with positive `maxHeight`, `build_slice` produces
exactly `maxHeight + 2` characters and coincides row-for-row with the
spec's description (boundary, rows `maxHeight-1` down to `0` with
wall/marker/space, boundary); in particular the slice with
`maxHeight = 4, ceiling = 3, floor = 0`, no marker, renders as
`*`, `_`, ` `, ` `, `_`, `*`. -/
theorem C9_render (s : CaveSlice) (h : 0 < s.max_height) :
    ((build_slice s).length : Int) = s.max_height + 2 ∧
    build_slice s = render_spec s ∧
    build_slice ⟨4, 3, 3, 0, none⟩ = ['*', '_', ' ', ' ', '_', '*'] := by
  refine ⟨?_, ?_, by decide⟩
  · have hl : (build_slice s).length = s.max_height.toNat + 2 := by
      unfold build_slice
      rw [List.length_append, List.length_cons, List.length_map, List.length_reverse,
        List.length_range]
      rfl
    rw [hl]
    push_cast [Int.toNat_of_nonneg (le_of_lt h)]
    ring
  · unfold build_slice render_spec
    rw [range_reverse_map_rowChar]

/-- Witness for C9 at the slice `maxHeight = 4, ceiling = 3, floor = 0`,
no marker. -/
theorem C9_witness :
    ((build_slice ⟨4, 3, 3, 0, none⟩).length : Int) = 4 + 2 ∧
    build_slice ⟨4, 3, 3, 0, none⟩ = ['*', '_', ' ', ' ', '_', '*'] := by
  have h := C9_render ⟨4, 3, 3, 0, none⟩ (by norm_num)
  exact ⟨h.1, h.2.2⟩

/-! ## C10: key frame at small widths -/

/-- C10: for a cave built with `0 < width < 5`, the key-frame offset
`width // 5` is `0`; `Ship.clear` then accesses Python index `-1`, so it
erases the marker of the newest (last) slice in the buffer, while
`Ship.plot_position` writes the marker of the oldest slice (index 0). -/
theorem C10_small_width (maxH minO : Int) (width : Nat)
    (h1 : 0 < width) (h2 : width < 5) (p : Int) :
    (cave_init maxH width minO).key_frame = 0 ∧
    clear (cave_init maxH width minO) =
      .ok { cave_init maxH width minO with
        cave_buffer := modifyAt (cave_init maxH width minO).cave_buffer (width - 1)
          fun s => { s with ship_position := none } } ∧
    plot_position p (cave_init maxH width minO) =
      .ok { cave_init maxH width minO with
        cave_buffer := modifyAt (cave_init maxH width minO).cave_buffer 0
          fun s => { s with ship_position := some p } } := by
  have hk : (cave_init maxH width minO).key_frame = 0 := by
    simp [cave_init, Nat.div_eq_of_lt h2]
  have hlen : (cave_init maxH width minO).cave_buffer.length = width := by
    simp [cave_init]
  refine ⟨hk, ?_, ?_⟩
  · have hidx : pyIdx (cave_init maxH width minO).cave_buffer.length
        (((cave_init maxH width minO).key_frame : Int) - 1) = some (width - 1) := by
      rw [hk, hlen]
      unfold pyIdx
      rw [if_neg (by norm_num), if_pos (by push_cast; omega)]
      congr 1
      omega
    unfold clear
    rw [hidx]
  · have hidx : pyIdx (cave_init maxH width minO).cave_buffer.length
        ((cave_init maxH width minO).key_frame : Int) = some 0 := by
      rw [hk, hlen]
      unfold pyIdx
      rw [if_pos (by norm_num), if_pos (by exact_mod_cast h1)]
      norm_num
    unfold plot_position
    rw [hidx]

/-- Witness for C10 at `maxHeight = 10, width = 3, minOpening = 2`,
ship position 4. -/
theorem C10_witness :
    (cave_init 10 3 2).key_frame = 0 ∧
    clear (cave_init 10 3 2) =
      .ok { cave_init 10 3 2 with
        cave_buffer := modifyAt (cave_init 10 3 2).cave_buffer (3 - 1)
          fun s => { s with ship_position := none } } ∧
    plot_position 4 (cave_init 10 3 2) =
      .ok { cave_init 10 3 2 with
        cave_buffer := modifyAt (cave_init 10 3 2).cave_buffer 0
          fun s => { s with ship_position := some 4 } } :=
  C10_small_width 10 2 3 (by norm_num) (by norm_num) 4

/-! ## Reachability infrastructure for the buffer invariants -/

theorem getLast?_mem_self {α : Type} : ∀ {l : List α} {a : α}, l.getLast? = some a → a ∈ l
  | [], _, h => by simp at h
  | [x], a, h => by
    simp [List.getLast?_singleton] at h
    simp [h]
  | x :: y :: l, a, h => by
    rw [List.getLast?_cons_cons] at h
    exact List.mem_cons_of_mem x (getLast?_mem_self h)

theorem getLast?_isSome_of_ne_nil {α : Type} (l : List α) (h : l ≠ []) :
    ∃ a, l.getLast? = some a := by
  cases l with
  | nil => exact absurd rfl h
  | cons x xs =>
    induction xs generalizing x with
    | nil => exact ⟨x, rfl⟩
    | cons y ys ih =>
      obtain ⟨a, ha⟩ := ih y (by simp)
      exact ⟨a, by rw [List.getLast?_cons_cons]; exact ha⟩

theorem cave_next_ok_elim {c c' : Cave} {cu fu : Bool} {P : Prop}
    (h : cave_next c cu fu = .ok c')
    (hk : ∀ a rest last_slice, c.cave_buffer = a :: rest →
      rest.getLast? = some last_slice →
      c' = { c with cave_buffer := rest ++ [next_slice last_slice cu fu] } → P) : P := by
  rcases hb : c.cave_buffer with _ | ⟨a, rest⟩
  · simp only [cave_next, hb] at h
    exact Except.noConfusion h
  · rcases hl : rest.getLast? with _ | last_slice
    · simp only [cave_next, hb, hl] at h
      exact Except.noConfusion h
    · simp only [cave_next, hb, hl, Except.ok.injEq] at h
      exact hk a rest last_slice hb hl h.symm

theorem plot_position_ok_elim {p : Int} {c c' : Cave} {P : Prop}
    (h : plot_position p c = .ok c')
    (hk : ∀ j, pyIdx c.cave_buffer.length (c.key_frame : Int) = some j →
      c' = { c with
          cave_buffer := modifyAt c.cave_buffer j
            (fun s => { s with ship_position := some p }) } → P) :
    P := by
  rcases hj : pyIdx c.cave_buffer.length (c.key_frame : Int) with _ | j
  · simp only [plot_position, hj] at h
    exact Except.noConfusion h
  · simp only [plot_position, hj, Except.ok.injEq] at h
    exact hk j hj h.symm

theorem clear_ok_elim {c c' : Cave} {P : Prop}
    (h : clear c = .ok c')
    (hk : ∀ j, pyIdx c.cave_buffer.length ((c.key_frame : Int) - 1) = some j →
      c' = { c with
          cave_buffer := modifyAt c.cave_buffer j
            (fun s => { s with ship_position := none }) } → P) :
    P := by
  rcases hj : pyIdx c.cave_buffer.length ((c.key_frame : Int) - 1) with _ | j
  · simp only [clear, hj] at h
    exact Except.noConfusion h
  · simp only [clear, hj, Except.ok.injEq] at h
    exact hk j hj h.symm

theorem reach_buffer_length {maxH minO : Int} {width : Nat} {c : Cave}
    (h : Reach maxH width minO c) : c.cave_buffer.length = width := by
  induction h with
  | init => simp [cave_init]
  | advance cu fu _ heq ih =>
    refine cave_next_ok_elim heq ?_
    intro a rest last_slice hb _ hc'
    rw [hb] at ih
    subst hc'
    simp at ih ⊢
    omega
  | mutate i op _ ih =>
    simpa [modifyAt_length] using ih
  | plot p _ heq ih =>
    refine plot_position_ok_elim heq ?_
    intro j _ hc'
    subst hc'
    simpa [modifyAt_length] using ih
  | clearStep _ heq ih =>
    refine clear_ok_elim heq ?_
    intro j _ hc'
    subst hc'
    simpa [modifyAt_length] using ih

theorem reach_key_frame {maxH minO : Int} {width : Nat} {c : Cave}
    (h : Reach maxH width minO c) : c.key_frame = width / 5 := by
  induction h with
  | init => rfl
  | advance cu fu _ heq ih =>
    refine cave_next_ok_elim heq ?_
    intro a rest last_slice _ _ hc'
    subst hc'
    exact ih
  | mutate i op _ ih => exact ih
  | plot p _ heq ih =>
    refine plot_position_ok_elim heq ?_
    intro j _ hc'
    subst hc'
    exact ih
  | clearStep _ heq ih =>
    refine clear_ok_elim heq ?_
    intro j _ hc'
    subst hc'
    exact ih

/-- The inductive invariant carried through reachability: the slice keeps
the cave's configured `min_opening` and satisfies the opening bounds. -/
def Good (minO : Int) (s : CaveSlice) : Prop :=
  s.min_opening = minO ∧ SliceInv s

theorem raise_ceiling_min_opening (s : CaveSlice) :
    (raise_ceiling s).min_opening = s.min_opening := by
  unfold raise_ceiling; split_ifs <;> rfl

theorem lower_ceiling_min_opening (s : CaveSlice) :
    (lower_ceiling s).min_opening = s.min_opening := by
  unfold lower_ceiling; split_ifs <;> rfl

theorem raise_floor_min_opening (s : CaveSlice) :
    (raise_floor s).min_opening = s.min_opening := by
  unfold raise_floor; split_ifs <;> rfl

theorem lower_floor_min_opening (s : CaveSlice) :
    (lower_floor s).min_opening = s.min_opening := by
  unfold lower_floor; split_ifs <;> rfl

theorem raise_ceiling_good {minO : Int} {s : CaveSlice} (h : Good minO s) :
    Good minO (raise_ceiling s) :=
  ⟨(raise_ceiling_min_opening s).trans h.1, raise_ceiling_sliceInv h.2⟩

theorem lower_ceiling_good {minO : Int} (hm : 0 < minO) {s : CaveSlice} (h : Good minO s) :
    Good minO (lower_ceiling s) :=
  ⟨(lower_ceiling_min_opening s).trans h.1, lower_ceiling_sliceInv (h.1 ▸ hm) h.2⟩

theorem raise_floor_good {minO : Int} (hm : 0 < minO) {s : CaveSlice} (h : Good minO s) :
    Good minO (raise_floor s) :=
  ⟨(raise_floor_min_opening s).trans h.1, raise_floor_sliceInv (h.1 ▸ hm) h.2⟩

theorem lower_floor_good {minO : Int} {s : CaveSlice} (h : Good minO s) :
    Good minO (lower_floor s) :=
  ⟨(lower_floor_min_opening s).trans h.1, lower_floor_sliceInv h.2⟩

theorem applyOp_good {minO : Int} (hm : 0 < minO) (op : SliceOp) {s : CaveSlice}
    (h : Good minO s) : Good minO (applyOp op s) := by
  cases op with
  | raiseC => exact raise_ceiling_good h
  | lowerC => exact lower_ceiling_good hm h
  | raiseF => exact raise_floor_good hm h
  | lowerF => exact lower_floor_good h

theorem marker_good {minO : Int} {x : Option Int} {s : CaveSlice} (h : Good minO s) :
    Good minO { s with ship_position := x } :=
  ⟨h.1, h.2⟩

theorem next_slice_good {minO : Int} (hm : 0 < minO) (last_slice : CaveSlice)
    (cu fu : Bool) (h : Good minO last_slice) :
    Good minO (next_slice last_slice cu fu) := by
  have h0 : Good minO (mkSlice last_slice.max_height last_slice.min_opening
      last_slice.ceiling last_slice.floor) := ⟨h.1, h.2⟩
  unfold next_slice
  split_ifs <;>
    first
      | exact raise_floor_good hm (raise_ceiling_good h0)
      | exact raise_floor_good hm (lower_ceiling_good hm h0)
      | exact lower_floor_good (raise_ceiling_good h0)
      | exact lower_floor_good (lower_ceiling_good hm h0)

theorem cave_next_good {minO : Int} (hm : 0 < minO) {c c' : Cave} {cu fu : Bool}
    (heq : cave_next c cu fu = .ok c')
    (hall : ∀ s ∈ c.cave_buffer, Good minO s) :
    ∀ s ∈ c'.cave_buffer, Good minO s := by
  refine cave_next_ok_elim heq ?_
  intro a rest last_slice hb hl hc'
  subst hc'
  intro s hs
  simp only [List.mem_append, List.mem_singleton] at hs
  rcases hs with hs | rfl
  · exact hall s (hb ▸ List.mem_cons_of_mem a hs)
  · have hlast : Good minO last_slice :=
      hall last_slice (hb ▸ List.mem_cons_of_mem a (getLast?_mem_self hl))
    exact next_slice_good hm last_slice cu fu hlast

theorem reach_good {maxH minO : Int} {width : Nat} {c : Cave}
    (hm : 0 < minO) (hmo : minO ≤ maxH - 1)
    (h : Reach maxH width minO c) : ∀ s ∈ c.cave_buffer, Good minO s := by
  induction h with
  | init =>
    intro s hs
    simp only [cave_init, List.mem_replicate] at hs
    rw [hs.2]
    refine ⟨rfl, ?_⟩
    unfold init_cave_slice defaultSlice mkSlice SliceInv
    refine ⟨le_refl 0, ?_, le_refl _, ?_⟩ <;> simp <;> omega
  | advance cu fu _ heq ih => exact cave_next_good hm heq ih
  | mutate i op _ ih =>
    intro s hs
    exact mem_modifyAt ih (fun x hx => applyOp_good hm op hx) s hs
  | plot p _ heq ih =>
    refine plot_position_ok_elim heq ?_
    intro j _ hc'
    subst hc'
    intro s hs
    exact mem_modifyAt ih (fun x hx => marker_good hx) s hs
  | clearStep _ heq ih =>
    refine clear_ok_elim heq ?_
    intro j _ hc'
    subst hc'
    intro s hs
    exact mem_modifyAt ih (fun x hx => marker_good hx) s hs

/-! ## C1: opening invariant -/

/-- C1 as stated is false: with `maxHeight = 1, width = 1, minOpening = 1`
— positive values with `minOpening ≤ maxHeight`, so within the claim's
stated precondition — the freshly constructed buffer's slice has
`ceiling = 0, floor = 0`, whose opening `0` is below `minOpening = 1`. -/
theorem C1_counterexample :
    ((0 : Int) < 1 ∧ (0 : Nat) < 1 ∧ (1 : Int) ≤ 1) ∧
    ¬ SliceInv ((cave_init 1 1 1).cave_buffer.getD 0 default) := by
  decide

/-- C1 amended: under the precondition that `maxHeight`, `width`,
`minOpening` are positive and `minOpening ≤ maxHeight - 1` (rather than
`≤ maxHeight`), every slice of every reachable buffer state — after
construction, after every advance step, after every slice mutation, and
after every marker plot/clear — satisfies
`0 ≤ floor ≤ ceiling ≤ maxHeight - 1` and `ceiling - floor ≥ minOpening`. -/
theorem C1_opening_invariant (maxH minO : Int) (width : Nat) (c : Cave)
    (hH : 0 < maxH) (hw : 0 < width) (hm : 0 < minO) (hmo : minO ≤ maxH - 1)
    (h : Reach maxH width minO c) :
    ∀ s ∈ c.cave_buffer, SliceInv s :=
  fun s hs => (reach_good hm hmo h s hs).2

/-- Witness for the amended C1: the freshly constructed
`Cave(10, 5, 3)`'s first slice satisfies the opening bounds. -/
theorem C1_witness :
    SliceInv ((cave_init 10 5 3).cave_buffer.getD 0 default) := by
  have h := C1_opening_invariant 10 3 5 (cave_init 10 5 3)
    (by norm_num) (by norm_num) (by norm_num) (by norm_num) Reach.init
  exact h _ (by decide)

/-! ## C4: buffer length -/

/-- C4 as stated is false at `width = 1`: the advance step first deletes
the single slice and then evaluates `cave_buffer[-1]` on the now-empty
buffer, raising `IndexError`; the buffer is left at length `0 ≠ 1`, so
the length does not equal `width` after that advance call. -/
theorem C4_counterexample :
    raised (cave_next (cave_init 10 1 3) true true) = true ∧
    (okD (cave_next (cave_init 10 1 3) true true)).cave_buffer.length = 0 := by
  decide

/-- C4 amended: for every positive `width`, the buffer's length equals
`width` after construction and after every advance call that completes
without raising; at `width = 1` every advance call raises `IndexError`
(leaving the buffer empty), so the claim's "unconditionally" fails. -/
theorem C4_buffer_length (maxH minO : Int) (width : Nat) (c : Cave)
    (hw : 0 < width) (h : Reach maxH width minO c) :
    c.cave_buffer.length = width :=
  reach_buffer_length h

/-- Witness for the amended C4 at `Cave(10, 5, 3)` right after
construction. -/
theorem C4_witness : (cave_init 10 5 3).cave_buffer.length = 5 :=
  C4_buffer_length 10 3 5 (cave_init 10 5 3) (by norm_num) Reach.init

/-! ## C3: totality of the core operations -/

/-- C3 as stated is false: `maxHeight = 7, width = 1, minOpening = 2` is a
valid configuration (positive values, `minOpening ≤ maxHeight`), yet the
advance step on the freshly constructed cave raises `IndexError`. -/
theorem C3_counterexample :
    ((0 : Int) < 7 ∧ (0 : Nat) < 1 ∧ (0 : Int) < 2 ∧ (2 : Int) ≤ 7) ∧
    raised (cave_next (cave_init 7 1 2) true true) = true := by
  decide

/-- C3 amended: the slice mutators, `render`, construction and the ship
transitions are total functions (they are plain functions of this file),
and for every valid configuration with `width ≥ 2` and every reachable
buffer state, the three operations that index into the buffer — the
advance step, `plot_position` and `clear` — complete without raising;
at `width = 1` the advance step raises `IndexError`. -/
theorem C3_no_exceptions (maxH minO : Int) (width : Nat) (c : Cave)
    (hH : 0 < maxH) (hm : 0 < minO) (hmo : minO ≤ maxH) (hw : 2 ≤ width)
    (h : Reach maxH width minO c) (ceilUp floorUp : Bool) (p : Int) :
    raised (cave_next c ceilUp floorUp) = false ∧
    raised (plot_position p c) = false ∧
    raised (clear c) = false := by
  have hlen := reach_buffer_length h
  have hkf := reach_key_frame h
  have hkf_lt : width / 5 < width := Nat.div_lt_self (by omega) (by norm_num)
  refine ⟨?_, ?_, ?_⟩
  · rcases hb : c.cave_buffer with _ | ⟨a, rest⟩
    · rw [hb] at hlen
      simp at hlen
      omega
    · have hrest : rest ≠ [] := by
        intro hr
        rw [hb, hr] at hlen
        simp at hlen
        omega
      obtain ⟨last_slice, hl⟩ := getLast?_isSome_of_ne_nil rest hrest
      simp only [cave_next, hb, hl, raised]
  · obtain ⟨j, hj⟩ : ∃ j, pyIdx c.cave_buffer.length (c.key_frame : Int) = some j := by
      unfold pyIdx
      rw [if_pos (by positivity), if_pos (by rw [hlen, hkf]; exact_mod_cast hkf_lt)]
      exact ⟨_, rfl⟩
    simp only [plot_position, hj, raised]
  · obtain ⟨j, hj⟩ : ∃ j, pyIdx c.cave_buffer.length ((c.key_frame : Int) - 1) = some j := by
      unfold pyIdx
      split_ifs with h1 h2 h3
      · exact ⟨_, rfl⟩
      · exfalso
        rw [hlen, hkf] at h2
        have : ((width / 5 : Nat) : Int) < (width : Int) := by exact_mod_cast hkf_lt
        omega
      · exact ⟨_, rfl⟩
      · exfalso
        rw [hlen] at h3
        have : (2 : Int) ≤ (width : Int) := by exact_mod_cast hw
        omega
    simp only [clear, hj, raised]

/-- Witness for the amended C3 at `Cave(10, 5, 3)` right after
construction, with both draws high and ship position 4. -/
theorem C3_witness :
    raised (cave_next (cave_init 10 5 3) true true) = false ∧
    raised (plot_position 4 (cave_init 10 5 3)) = false ∧
    raised (clear (cave_init 10 5 3)) = false :=
  C3_no_exceptions 10 3 5 (cave_init 10 5 3) (by norm_num) (by norm_num)
    (by norm_num) (by norm_num) Reach.init true true 4

end CaveMaker
